import Mathlib

/-!
Verification of the Virtio Wayland VFD transport (drivers/virtio/virtio_wl.c).

This file shallowly embeds the pure decision logic of the driver: errno
translation, send-queue back-pressure, inbound dispatch validation, the
queue-entry drain/recycle lifecycle, the close protocol event order, the
hangup/fence state machine, and the mmap range check.  Machine integers are
modelled as Nat with explicit wrap-around (mod 2^64) at the one place the C
code relies on unsigned underflow.
-/

set_option maxRecDepth 16384

namespace VirtioWl

/-! Errno values used by the driver (from errno.h, negated on return). -/

def EPERM : Int := 1
def ENOENT : Int := 2
def EIO : Int := 5
def EAGAIN : Int := 11
def ENOMEM : Int := 12
def EACCES : Int := 13
def EFAULT : Int := 14
def EBUSY : Int := 16
def ENODEV : Int := 19
def EINVAL : Int := 22
def ENOTTY : Int := 25
def ENOSPC : Int := 28
def EPROTO : Int := 71
def EBADFD : Int := 77

/-!
Wire protocol constants.

Modelled from the spec: the uapi header linux/virtio_wl.h that defines the
control-message type codes, response codes, flag bits and size limits is not
part of the tree under verification; only virtio_wl.c is.  The values below
are the canonical ones of that header; the proofs depend only on their
distinctness (and, for the handle ranges, on the guest allocation bound lying
below the host-originated bit).
-/

def VIRTIO_WL_CMD_VFD_NEW : Nat := 256
def VIRTIO_WL_CMD_VFD_CLOSE : Nat := 257
def VIRTIO_WL_CMD_VFD_SEND : Nat := 258
def VIRTIO_WL_CMD_VFD_RECV : Nat := 259
def VIRTIO_WL_CMD_VFD_NEW_CTX : Nat := 260
def VIRTIO_WL_CMD_VFD_NEW_PIPE : Nat := 261
def VIRTIO_WL_CMD_VFD_HUP : Nat := 262
def VIRTIO_WL_CMD_VFD_NEW_DMABUF : Nat := 263
def VIRTIO_WL_CMD_VFD_DMABUF_SYNC : Nat := 264
def VIRTIO_WL_CMD_VFD_SEND_FOREIGN_ID : Nat := 265
def VIRTIO_WL_CMD_VFD_NEW_CTX_NAMED : Nat := 266

def VIRTIO_WL_RESP_OK : Nat := 4096
def VIRTIO_WL_RESP_VFD_NEW : Nat := 4097
def VIRTIO_WL_RESP_VFD_NEW_DMABUF : Nat := 4098
def VIRTIO_WL_RESP_ERR : Nat := 4352
def VIRTIO_WL_RESP_OUT_OF_MEMORY : Nat := 4353
def VIRTIO_WL_RESP_INVALID_ID : Nat := 4354
def VIRTIO_WL_RESP_INVALID_TYPE : Nat := 4355
def VIRTIO_WL_RESP_INVALID_FLAGS : Nat := 4356
def VIRTIO_WL_RESP_INVALID_CMD : Nat := 4357

def VIRTIO_WL_VFD_WRITE : Nat := 1
def VIRTIO_WL_VFD_READ : Nat := 2
def VIRTIO_WL_VFD_FENCE : Nat := 8

/-- Modelled from the spec: VIRTWL_MAX_ALLOC, the exclusive upper bound the
driver passes to idr_alloc for guest-originated handles (do_new), comes from
the missing uapi header; the spec requires only that the guest range be
disjoint from host-originated ids, which is the case for the canonical value
as it lies below bit 30. -/
def VIRTWL_MAX_ALLOC : Nat := 0x800

def VIRTWL_SEND_MAX_ALLOCS : Nat := 28

/-- VFD_ILLEGAL_SIGN_BIT from virtio_wl.c line 58. -/
def VFD_ILLEGAL_SIGN_BIT : Nat := 0x80000000

/-- VFD_HOST_VFD_ID_BIT from virtio_wl.c line 59. -/
def VFD_HOST_VFD_ID_BIT : Nat := 0x40000000

/-- PAGE_SIZE on the targeted configuration. -/
def PAGE_SIZE : Nat := 4096

/-- PAGE_ALIGN of the kernel: round up to the next multiple of PAGE_SIZE. -/
def PAGE_ALIGN (n : Nat) : Nat := ((n + (PAGE_SIZE - 1)) / PAGE_SIZE) * PAGE_SIZE

/-- Size in bytes of struct virtio_wl_ctrl_vfd_recv: an 8-byte header (type,
flags) followed by vfd_id and vfd_count, each 4 bytes. -/
def ctrl_vfd_recv_size : Nat := 16

/-- Wrap-around bound of size_t on the targeted 64-bit configuration. -/
def USIZE : Nat := 2 ^ 64

/-- Unsigned size_t subtraction: a - b computed modulo 2^64, as the C
expression (size_t)a - (size_t)b evaluates for a, b already reduced. -/
def usub (a b : Nat) : Nat := (a + (USIZE - b % USIZE)) % USIZE

/-!
virtwl_resp_err (virtio_wl.c lines 128-150): translate the type code of a
completed response header into the value returned to the caller.
-/

def virtwl_resp_err (t : Nat) : Int :=
  if t = VIRTIO_WL_RESP_OK then 0
  else if t = VIRTIO_WL_RESP_VFD_NEW then 0
  else if t = VIRTIO_WL_RESP_VFD_NEW_DMABUF then 0
  else if t = VIRTIO_WL_RESP_ERR then -ENODEV
  else if t = VIRTIO_WL_RESP_OUT_OF_MEMORY then -ENOMEM
  else if t = VIRTIO_WL_RESP_INVALID_ID then -ENOENT
  else if t = VIRTIO_WL_RESP_INVALID_TYPE then -EINVAL
  else if t = VIRTIO_WL_RESP_INVALID_FLAGS then -EPERM
  else if t = VIRTIO_WL_RESP_INVALID_CMD then -ENOTTY
  else -EPROTO

/-!
vq_queue_out (virtio_wl.c lines 168-193): submit a paired out/in transfer on
the send queue.  The loop body is driven by the outcome of each
virtqueue_add_sgs attempt and, when the attempt reports ENOSPC in blocking
mode, by whether wait_event_timeout observed free capacity within its HZ
bound.  We model one loop iteration per list element: the AddResult is the
attempt's outcome and the Bool is the wait outcome used only when the attempt
returned ENOSPC in blocking mode.
-/

inductive AddResult where
  | ok : AddResult
  | enospc : AddResult
  | err : Int → AddResult
deriving DecidableEq

def vq_queue_out (nonblock : Bool) : List (AddResult × Bool) → Int
  | [] => 0
  | (a, w) :: rest =>
    match a with
    | AddResult.ok => 0
    | AddResult.err e => e
    | AddResult.enospc =>
      if nonblock then -EAGAIN
      else if w then vq_queue_out nonblock rest
      else -EBUSY

/-!
Claim C5: the response-code translation.
-/

/-- C5: virtwl_resp_err is total, maps the three success codes to success,
the generic device error to the distinct device-unreliable failure -ENODEV,
the specific error codes to -ENOMEM, -ENOENT, -EINVAL, -EPERM and -ENOTTY
respectively, every unrecognized code to the protocol-mismatch failure
-EPROTO, and the failure values are pairwise distinct and distinct from
success. -/
theorem resp_err_translation :
    (virtwl_resp_err VIRTIO_WL_RESP_OK = 0 ∧
     virtwl_resp_err VIRTIO_WL_RESP_VFD_NEW = 0 ∧
     virtwl_resp_err VIRTIO_WL_RESP_VFD_NEW_DMABUF = 0 ∧
     virtwl_resp_err VIRTIO_WL_RESP_ERR = -ENODEV ∧
     virtwl_resp_err VIRTIO_WL_RESP_OUT_OF_MEMORY = -ENOMEM ∧
     virtwl_resp_err VIRTIO_WL_RESP_INVALID_ID = -ENOENT ∧
     virtwl_resp_err VIRTIO_WL_RESP_INVALID_TYPE = -EINVAL ∧
     virtwl_resp_err VIRTIO_WL_RESP_INVALID_FLAGS = -EPERM ∧
     virtwl_resp_err VIRTIO_WL_RESP_INVALID_CMD = -ENOTTY) ∧
    (List.Pairwise (fun a b => a ≠ b)
      [(0 : Int), -ENODEV, -ENOMEM, -ENOENT, -EINVAL, -EPERM, -ENOTTY,
       -EPROTO]) ∧
    (∀ t : Nat,
      t ∉ [VIRTIO_WL_RESP_OK, VIRTIO_WL_RESP_VFD_NEW,
           VIRTIO_WL_RESP_VFD_NEW_DMABUF, VIRTIO_WL_RESP_ERR,
           VIRTIO_WL_RESP_OUT_OF_MEMORY, VIRTIO_WL_RESP_INVALID_ID,
           VIRTIO_WL_RESP_INVALID_TYPE, VIRTIO_WL_RESP_INVALID_FLAGS,
           VIRTIO_WL_RESP_INVALID_CMD] →
      virtwl_resp_err t = -EPROTO) := by
  refine ⟨by decide, by decide, ?_⟩
  intro t ht
  simp only [List.mem_cons, List.not_mem_nil, or_false, not_or] at ht
  obtain ⟨h1, h2, h3, h4, h5, h6, h7, h8, h9⟩ := ht
  simp only [virtwl_resp_err, if_neg h1, if_neg h2, if_neg h3, if_neg h4,
    if_neg h5, if_neg h6, if_neg h7, if_neg h8, if_neg h9]

/-- Witness for C5: the unrecognized code 7 maps to -EPROTO. -/
theorem resp_err_translation_witness : virtwl_resp_err 7 = -EPROTO :=
  resp_err_translation.2.2 7 (by decide)

/-!
Claim C4: send-queue back-pressure.
-/

/-- C4: when the submission attempt reports no free slot, vq_queue_out fails
immediately with -EAGAIN in non-blocking mode; in blocking mode a wait that
times out without observed capacity yields -EBUSY rather than hanging, and a
wait that observes capacity leads to a retry of the remaining trace. -/
theorem send_queue_backpressure :
    ∀ (rest : List (AddResult × Bool)) (w : Bool),
      vq_queue_out true ((AddResult.enospc, w) :: rest) = -EAGAIN ∧
      vq_queue_out false ((AddResult.enospc, false) :: rest) = -EBUSY ∧
      vq_queue_out false ((AddResult.enospc, true) :: rest) =
        vq_queue_out false rest := by
  intro rest w
  refine ⟨rfl, rfl, rfl⟩

/-!
Claim C1: order of events in the close protocol.

do_vfd_close (virtio_wl.c lines 685-722) allocates the close command, submits
it via vq_queue_out, blocks in wait_for_completion, and then calls
virtwl_vfd_remove (lines 550-569), which unlinks the id from the registry,
recycles queued inbound buffers, and frees the vfd memory.  We record the
sequence of externally meaningful events of one call.
-/

inductive CloseEvent where
  | queue_close_cmd : CloseEvent
  | wait_completion : CloseEvent
  | remove_handle : CloseEvent
  | return_qentries : CloseEvent
  | free_vfd : CloseEvent
  | free_ctrl : CloseEvent
deriving DecidableEq

/-- Event sequence of virtwl_vfd_remove: unlink from the idr, return queued
inbound buffers to the receive queue, free the vfd memory. -/
def virtwl_vfd_remove_trace : List CloseEvent :=
  [CloseEvent.remove_handle, CloseEvent.return_qentries, CloseEvent.free_vfd]

/-- Event sequence of do_vfd_close, parameterized by whether the kzalloc of
the command succeeded and by the return value of vq_queue_out. -/
def do_vfd_close_trace (alloc_ok : Bool) (queue_ret : Int) : List CloseEvent :=
  if ¬ alloc_ok then []
  else if queue_ret ≠ 0 then
    [CloseEvent.queue_close_cmd, CloseEvent.free_ctrl]
  else
    [CloseEvent.queue_close_cmd, CloseEvent.wait_completion] ++
      virtwl_vfd_remove_trace ++ [CloseEvent.free_ctrl]

/-- Counterexample to C1 as stated: on a successful close, the registry
removal does NOT precede the blocking host round trip; the handle is removed
only after wait_completion. -/
theorem close_removal_order_counterexample :
    CloseEvent.remove_handle ∈ do_vfd_close_trace true 0 ∧
    CloseEvent.wait_completion ∈ do_vfd_close_trace true 0 ∧
    ¬ (List.indexOf CloseEvent.remove_handle (do_vfd_close_trace true 0) <
       List.indexOf CloseEvent.wait_completion (do_vfd_close_trace true 0)) := by
  decide

/-- C1 amended: on a successful close the full round trip completes first,
then the handle is removed from the registry, and the VFD memory is released
only after both; on a failed submission neither removal nor release happens.
Safety against concurrent lookups comes from the caller's unique ownership of
the vfd (comment at virtio_wl.c line 684), not from early removal. -/
theorem close_removal_after_roundtrip :
    ∀ (r : Int),
      (r = 0 →
        List.indexOf CloseEvent.wait_completion (do_vfd_close_trace true r) <
          List.indexOf CloseEvent.remove_handle (do_vfd_close_trace true r) ∧
        List.indexOf CloseEvent.remove_handle (do_vfd_close_trace true r) <
          List.indexOf CloseEvent.free_vfd (do_vfd_close_trace true r) ∧
        CloseEvent.free_vfd ∈ do_vfd_close_trace true r) ∧
      (r ≠ 0 →
        CloseEvent.remove_handle ∉ do_vfd_close_trace true r ∧
        CloseEvent.free_vfd ∉ do_vfd_close_trace true r) := by
  intro r
  constructor
  · intro hr
    subst hr
    decide
  · intro hr
    have htr : do_vfd_close_trace true r =
        [CloseEvent.queue_close_cmd, CloseEvent.free_ctrl] := by
      simp [do_vfd_close_trace, hr]
    rw [htr]
    decide

/-- Witness for C1 amended: instantiated at a successful run and a failed
submission (-EBUSY). -/
theorem close_removal_after_roundtrip_witness :
    (List.indexOf CloseEvent.wait_completion (do_vfd_close_trace true 0) <
      List.indexOf CloseEvent.remove_handle (do_vfd_close_trace true 0)) ∧
    CloseEvent.free_vfd ∉ do_vfd_close_trace true (-EBUSY) :=
  ⟨((close_removal_after_roundtrip 0).1 rfl).1,
   ((close_removal_after_roundtrip (-EBUSY)).2 (by decide)).2⟩

/-!
Claim C3: validation of inbound New announcements and handle-range
disjointness.

vq_handle_new (virtio_wl.c lines 277-312) drops announcements whose id is
zero, lacks VFD_HOST_VFD_ID_BIT, or carries VFD_ILLEGAL_SIGN_BIT; otherwise
it allocates a vfd and registers it under exactly that id (idr_alloc with
range [id, id+1)), dropping it if allocation fails or the id is taken.
do_new (lines 1272-1277) allocates guest-originated ids with idr_alloc over
the range [1, VIRTWL_MAX_ALLOC).  The registry is modelled as the list of
registered ids.
-/

structure NewResult where
  reg : List Nat
  registered : Bool
deriving DecidableEq

def vq_handle_new (reg : List Nat) (id : Nat) (mem_ok : Bool) : NewResult :=
  if id = 0 then ⟨reg, false⟩
  else if ¬ (Nat.testBit id 30) ∨ Nat.testBit id 31 then ⟨reg, false⟩
  else if ¬ mem_ok then ⟨reg, false⟩
  else if id ∈ reg then ⟨reg, false⟩
  else ⟨id :: reg, true⟩

/-- Guest-side handle allocation of do_new: the first free integer in the
range [1, VIRTWL_MAX_ALLOC), as idr_alloc assigns it. -/
def do_new_alloc_id (reg : List Nat) : Option Nat :=
  (List.range VIRTWL_MAX_ALLOC).find? (fun i => 1 ≤ i ∧ i ∉ reg)

/-- C3: a New announcement registers a VFD only when the announced id is
nonzero, carries the host-originated bit 30, and has bit 31 clear; any
announcement failing these checks leaves the registry unchanged and registers
nothing; and every guest-allocated id lies in [1, VIRTWL_MAX_ALLOC), hence
has bit 30 clear and is distinct from every host-originated id. -/
theorem new_announcement_validation :
    (∀ (reg : List Nat) (id : Nat) (mem_ok : Bool),
      (vq_handle_new reg id mem_ok).registered = true →
      id ≠ 0 ∧ Nat.testBit id 30 = true ∧ Nat.testBit id 31 = false) ∧
    (∀ (reg : List Nat) (id : Nat) (mem_ok : Bool),
      (id = 0 ∨ Nat.testBit id 30 = false ∨ Nat.testBit id 31 = true) →
      vq_handle_new reg id mem_ok = ⟨reg, false⟩) ∧
    (∀ (reg : List Nat) (g : Nat),
      do_new_alloc_id reg = some g →
      1 ≤ g ∧ g < VIRTWL_MAX_ALLOC ∧ Nat.testBit g 30 = false ∧
        ∀ h : Nat, Nat.testBit h 30 = true → g ≠ h) := by
  refine ⟨?_, ?_, ?_⟩
  · intro reg id mem_ok hreg
    by_cases h0 : id = 0
    · simp [vq_handle_new, h0] at hreg
    by_cases h30 : Nat.testBit id 30
    · by_cases h31 : Nat.testBit id 31
      · simp [vq_handle_new, h0, h30, h31] at hreg
      · exact ⟨h0, by simp [h30], by simp [h31]⟩
    · simp [vq_handle_new, h0, h30] at hreg
  · intro reg id mem_ok hbad
    rcases hbad with h0 | h30 | h31
    · simp [vq_handle_new, h0]
    · by_cases h0 : id = 0
      · simp [vq_handle_new, h0]
      · simp [vq_handle_new, h0, h30]
    · by_cases h0 : id = 0
      · simp [vq_handle_new, h0]
      · simp [vq_handle_new, h0, h31]
  · intro reg g hfind
    have hmem : g ∈ List.range VIRTWL_MAX_ALLOC :=
      List.mem_of_find?_eq_some hfind
    have hlt : g < VIRTWL_MAX_ALLOC := List.mem_range.mp hmem
    have hpred := List.find?_some hfind
    have hge : 1 ≤ g := by
      by_contra hc
      simp [hc] at hpred
    have hsmall : g < 2 ^ 30 := lt_of_lt_of_le hlt (by norm_num [VIRTWL_MAX_ALLOC])
    have hbit : Nat.testBit g 30 = false := by
      apply Nat.testBit_lt_two_pow
      exact hsmall
    refine ⟨hge, hlt, hbit, ?_⟩
    intro h hh heq
    rw [heq] at hbit
    rw [hh] at hbit
    exact Bool.true_eq_false.mp hbit

/-- Witness for C3: a valid host announcement with id 2^30 registers; id 5
(guest range, bit 30 clear) is dropped; the first guest allocation on an
empty registry yields 1, disjoint from host ids. -/
theorem new_announcement_validation_witness :
    (Nat.testBit (2 ^ 30 : Nat) 30 = true ∧
      Nat.testBit (2 ^ 30 : Nat) 31 = false) ∧
    vq_handle_new [] 5 true = ⟨[], false⟩ ∧
    (1 ≤ 1 ∧ 1 < VIRTWL_MAX_ALLOC ∧ Nat.testBit 1 30 = false ∧
      ∀ h : Nat, Nat.testBit h 30 = true → 1 ≠ h) :=
  ⟨⟨(new_announcement_validation.1 [] (2 ^ 30) true (by decide)).2.1,
    (new_announcement_validation.1 [] (2 ^ 30) true (by decide)).2.2⟩,
   new_announcement_validation.2.1 [] 5 true (Or.inr (Or.inl (by decide))),
   new_announcement_validation.2.2 [] 1 (by decide)⟩

/-!
Claim C6: writes after hangup.

virtwl_vfd_send (virtio_wl.c lines 904-1103) resolves attachments, returns 0
immediately for an empty send (len 0, no attachments), allocates and fills
the command buffer, submits it, waits for the round trip, and returns
virtwl_resp_err of the response type.  The function reads vfd->id and
vfd->flags but never consults vfd->hungup; we carry the hung-up flag as an
explicit argument to show the result is independent of it.  Allocation and
user-copy outcomes and the submission return value are inputs.
-/

def virtwl_vfd_send (hungup : Bool) (len vfd_count : Nat)
    (alloc_ok copy_ok : Bool) (queue_ret : Int) (resp_type : Nat) : Int :=
  if len = 0 ∧ vfd_count = 0 then 0
  else if ¬ alloc_ok then -ENOMEM
  else if ¬ copy_ok then -EFAULT
  else if queue_ret ≠ 0 then queue_ret
  else virtwl_resp_err resp_type

/-- Counterexample to C6 as stated: an empty send on a VFD whose hung-up flag
is set returns 0, a success, so not every write/send on a hung-up VFD
fails. -/
theorem hungup_send_counterexample :
    virtwl_vfd_send true 0 0 true true 0 VIRTIO_WL_RESP_OK = 0 ∧
    ¬ virtwl_vfd_send true 0 0 true true 0 VIRTIO_WL_RESP_OK < 0 := by
  decide

/-- C6 amended: the send path performs no local hung-up check at all: its
result is independent of the hung-up flag; an empty send succeeds even on a
hung-up VFD, and a non-empty send on a hung-up VFD fails only through a
submission error or through the host's response code. -/
theorem send_ignores_hungup :
    ∀ (len c : Nat) (a cp : Bool) (q : Int) (r : Nat),
      virtwl_vfd_send true len c a cp q r =
        virtwl_vfd_send false len c a cp q r ∧
      virtwl_vfd_send true 0 0 a cp q r = 0 ∧
      (¬ (len = 0 ∧ c = 0) →
        virtwl_vfd_send true len c true true 0 r = virtwl_resp_err r) := by
  intro len c a cp q r
  refine ⟨rfl, rfl, ?_⟩
  intro hne
  simp [virtwl_vfd_send, hne]

/-- Witness for C6 amended: a one-byte send on a hung-up VFD returns the
translation of the host's response code. -/
theorem send_ignores_hungup_witness :
    virtwl_vfd_send true 1 0 true true 0 VIRTIO_WL_RESP_ERR =
      virtwl_resp_err VIRTIO_WL_RESP_ERR :=
  (send_ignores_hungup 1 0 true true 0 VIRTIO_WL_RESP_ERR).2.2 (by decide)

/-!
Claim C7: fence signaled exactly once.

Two code paths touch a fence VFD's dma_fence, both under vi->fence_lock:
the hangup handler (virtio_wl.c lines 376-382) signals the stored fence if
one is set, and the bridge-creation path of virtwl_ioctl_recv (lines
1434-1439) either stores the fence (when the VFD is not yet hung-up) or
signals it immediately (when it is).  Because both critical sections hold
the same spinlock, an interleaving is a sequence of atomic steps.
-/

structure FenceState where
  hungup : Bool
  fence_set : Bool
  signals : Nat
deriving DecidableEq

def fence_init : FenceState := ⟨false, false, 0⟩

/-- Fence part of vq_handle_hup: mark hung-up; signal the fence iff one has
been stored (the pointer is not cleared by the code). -/
def vq_handle_hup_fence (s : FenceState) : FenceState :=
  { hungup := true
    fence_set := s.fence_set
    signals := if s.fence_set then s.signals + 1 else s.signals }

/-- Bridge creation in virtwl_ioctl_recv: under fence_lock, store the fence
if the VFD is not hung-up, otherwise signal it immediately. -/
def bridge_fence (s : FenceState) : FenceState :=
  if ¬ s.hungup then { s with fence_set := true }
  else { s with signals := s.signals + 1 }

inductive FenceOp where
  | bridge : FenceOp
  | hup : FenceOp
deriving DecidableEq

def fence_step (s : FenceState) : FenceOp → FenceState
  | FenceOp.bridge => bridge_fence s
  | FenceOp.hup => vq_handle_hup_fence s

def fence_run (ops : List FenceOp) : FenceState :=
  ops.foldl fence_step fence_init

/-- C7: under either interleaving of one bridge creation and one hangup
notice the fence is signaled exactly once, and no prefix of the run signals
it more than once; a bridge alone or a hangup alone never signals. -/
theorem fence_signaled_exactly_once :
    ∀ ops : List FenceOp,
      (ops = [FenceOp.bridge, FenceOp.hup] ∨
       ops = [FenceOp.hup, FenceOp.bridge]) →
      (fence_run ops).signals = 1 ∧
      (∀ n : Nat, (fence_run (ops.take n)).signals ≤ 1) ∧
      (fence_run [FenceOp.bridge]).signals = 0 ∧
      (fence_run [FenceOp.hup]).signals = 0 := by
  intro ops hops
  rcases hops with h | h <;> subst h
  · refine ⟨by decide, ?_, by decide, by decide⟩
    intro n
    match n with
    | 0 => decide
    | 1 => decide
    | Nat.succ (Nat.succ m) =>
      simp only [List.take_succ_cons, List.take_nil]
      decide
  · refine ⟨by decide, ?_, by decide, by decide⟩
    intro n
    match n with
    | 0 => decide
    | 1 => decide
    | Nat.succ (Nat.succ m) =>
      simp only [List.take_succ_cons, List.take_nil]
      decide

/-- Witness for C7: the bridge-then-hangup interleaving signals exactly
once. -/
theorem fence_signaled_exactly_once_witness :
    (fence_run [FenceOp.bridge, FenceOp.hup]).signals = 1 :=
  (fence_signaled_exactly_once [FenceOp.bridge, FenceOp.hup]
    (Or.inl rfl)).1

/-!
Claim C8: the mmap range check.

virtwl_vfd_mmap (virtio_wl.c lines 1165-1185) refuses VFDs without a backing
pfn with -EACCES, refuses requests whose vm_size plus byte offset
(vm_pgoff shifted by PAGE_SHIFT, computed in unsigned long arithmetic)
exceeds PAGE_ALIGN(vfd->size) with -EINVAL, and otherwise returns the result
of io_remap_pfn_range (0 on success).  do_new for VIRTWL_IOCTL_NEW_ALLOC
(lines 1291-1293) requests PAGE_ALIGN(ioctl_new->size) from the host, so the
allocation size is the rounded-up size.
-/

def virtwl_vfd_mmap (pfn size vm_size vm_pgoff : Nat) (remap_ret : Int) : Int :=
  if pfn = 0 then -EACCES
  else if (vm_size + vm_pgoff * PAGE_SIZE) % USIZE > PAGE_ALIGN size then
    -EINVAL
  else remap_ret

/-- Size the driver requests from the host for a shared-memory allocation of
the given requested byte size (field truncated to 32 bits on the wire). -/
def do_new_alloc_size (req : Nat) : Nat := PAGE_ALIGN req % 2 ^ 32

/-- C8: mmap fails with -EACCES exactly when the VFD has no backing pfn;
with a backing pfn it fails with -EINVAL whenever the requested span
exceeds the page-aligned allocation size, and a request of offset 0 with
length equal to the rounded-up size is accepted, succeeding when the remap
succeeds; a 4096-byte shared allocation has rounded-up size 4096. -/
theorem mmap_range_check :
    (∀ (size vm_size vm_pgoff : Nat) (r : Int),
      virtwl_vfd_mmap 0 size vm_size vm_pgoff r = -EACCES) ∧
    (∀ (pfn size vm_size vm_pgoff : Nat) (r : Int),
      pfn ≠ 0 →
      vm_size + vm_pgoff * PAGE_SIZE < USIZE →
      vm_size + vm_pgoff * PAGE_SIZE > PAGE_ALIGN size →
      virtwl_vfd_mmap pfn size vm_size vm_pgoff r = -EINVAL) ∧
    (∀ (pfn size : Nat) (r : Int),
      pfn ≠ 0 →
      size < 2 ^ 32 →
      virtwl_vfd_mmap pfn size (PAGE_ALIGN size) 0 r = r) ∧
    do_new_alloc_size PAGE_SIZE = PAGE_SIZE := by
  refine ⟨?_, ?_, ?_, by decide⟩
  · intro size vm_size vm_pgoff r
    simp [virtwl_vfd_mmap]
  · intro pfn size vm_size vm_pgoff r hpfn hlt hgt
    have hcond : (vm_size + vm_pgoff * PAGE_SIZE) % USIZE > PAGE_ALIGN size := by
      rw [Nat.mod_eq_of_lt hlt]
      exact hgt
    simp only [virtwl_vfd_mmap, if_neg hpfn, if_pos hcond]
  · intro pfn size r hpfn hsize
    have hb : PAGE_ALIGN size < USIZE := by
      have hle : PAGE_ALIGN size ≤ size + PAGE_SIZE := by
        unfold PAGE_ALIGN
        have := Nat.div_mul_le_self (size + (PAGE_SIZE - 1)) PAGE_SIZE
        unfold PAGE_SIZE at *
        omega
      unfold USIZE
      unfold PAGE_SIZE at hle
      omega
    have hcond : ¬ ((PAGE_ALIGN size + 0 * PAGE_SIZE) % USIZE > PAGE_ALIGN size) := by
      rw [Nat.zero_mul, Nat.add_zero, Nat.mod_eq_of_lt hb]
      omega
    simp only [virtwl_vfd_mmap, if_neg hpfn, if_neg hcond]

/-- Witness for C8: a VFD with pfn 7 backing a 4096-byte allocation accepts
a map of offset 0 and length 4096, and refuses one page more. -/
theorem mmap_range_check_witness :
    virtwl_vfd_mmap 7 4096 4096 0 0 = 0 ∧
    virtwl_vfd_mmap 7 4096 8192 0 0 = -EINVAL :=
  ⟨mmap_range_check.2.2.1 7 4096 0 (by decide) (by decide),
   mmap_range_check.2.1 7 4096 8192 0 0 (by decide) (by decide) (by decide)⟩

/-!
Inbound queue entries (struct virtwl_vfd_qentry, virtio_wl.c lines 63-69)
wrapping a received virtio_wl_ctrl_vfd_recv buffer.  The raw buffer is
described by the header type, the total byte length reported by the
virtqueue, the vfd_count field, and the attached-id table; vfd_offset and
data_offset are the drain positions.
-/

structure QEntry where
  type : Nat
  len : Nat
  vfd_count : Nat
  ids : List Nat
  vfd_offset : Nat
  data_offset : Nat
deriving DecidableEq

/-- The signed byte length of the data portion of a recv buffer, as
vfd_qentry_free_if_empty computes it in ssize_t arithmetic (virtio_wl.c
lines 581-583). -/
def qentry_data_len (q : QEntry) : Int :=
  (q.len : Int) - (ctrl_vfd_recv_size : Int) - (q.vfd_count : Int) * 4

/-- vfd_qentry_free_if_empty (virtio_wl.c lines 571-598) reduced to its
decision: the entry is unlinked and its buffer returned to the inbound pool
unless it is a recv entry that still has undrained attached ids or undrained
data bytes.  True means the buffer is recycled and the entry removed. -/
def vfd_qentry_free_if_empty (q : QEntry) : Bool :=
  if q.type = VIRTIO_WL_CMD_VFD_RECV then
    decide (q.vfd_count ≤ q.vfd_offset) &&
      decide (qentry_data_len q ≤ (q.data_offset : Int))
  else true

/-!
vfd_out_locked (virtio_wl.c lines 600-637): drain bytes from the inbound
queue into a user buffer of the given length.  Returns the byte count and
the remaining queue, or an error.  The user copy is modelled as always
succeeding; the arithmetic of recv_offset and to_read follows the C size_t
computation, including the underflow check on to_read.
-/

def vfd_out_go (len read_count : Nat) : List QEntry → Except Int (Nat × List QEntry)
  | [] => Except.ok (read_count, [])
  | q :: rest =>
    let recv_offset := ctrl_vfd_recv_size + q.vfd_count * 4 + q.data_offset
    let to_read := usub q.len recv_offset
    if to_read > q.len then Except.error (- EIO)
    else if q.type ≠ VIRTIO_WL_CMD_VFD_RECV then
      match vfd_out_go len read_count rest with
      | Except.ok (rc, l) => Except.ok (rc, q :: l)
      | Except.error e => Except.error e
    else
      let t := if len - read_count < to_read then len - read_count else to_read
      let q1 : QEntry := { q with data_offset := q.data_offset + t }
      let keep : List QEntry := if vfd_qentry_free_if_empty q1 then [] else [q1]
      let rc1 := read_count + t
      if rc1 ≥ len then Except.ok (rc1, keep ++ rest)
      else
        match vfd_out_go len rc1 rest with
        | Except.ok (rc, l) => Except.ok (rc, keep ++ l)
        | Except.error e => Except.error e

def vfd_out_locked (len : Nat) (queue : List QEntry) : Except Int (Nat × List QEntry) :=
  vfd_out_go len 0 queue

/-!
vfd_out_vfds_locked (virtio_wl.c lines 640-682): drain attached vfd ids from
the inbound queue, looking each id up in the registry (modelled as the
predicate reg) and delivering only the ids that resolve; the drain position
advances past unresolved ids as well.  Returns the delivered ids and the
remaining queue; the Nat argument is the remaining capacity of the caller's
destination array.
-/

def deliver_ids (reg : Nat → Bool) : List Nat → List Nat
  | [] => []
  | i :: rest =>
    if reg i then i :: deliver_ids reg rest else deliver_ids reg rest

def vfd_out_vfds_locked (reg : Nat → Bool) : Nat → List QEntry → (List Nat × List QEntry)
  | _, [] => ([], [])
  | c, q :: rest =>
    if c = 0 then ([], q :: rest)
    else if q.vfd_count ≤ q.vfd_offset then
      let r := vfd_out_vfds_locked reg c rest
      (r.1, q :: r.2)
    else if q.type ≠ VIRTIO_WL_CMD_VFD_RECV then
      let r := vfd_out_vfds_locked reg c rest
      (r.1, q :: r.2)
    else
      let n := min (q.vfd_count - q.vfd_offset) c
      let delivered := deliver_ids reg ((q.ids.drop q.vfd_offset).take n)
      let q1 : QEntry := { q with vfd_offset := q.vfd_offset + n }
      let keep : List QEntry := if vfd_qentry_free_if_empty q1 then [] else [q1]
      let r := vfd_out_vfds_locked reg (c - delivered.length) rest
      (delivered ++ r.1, keep ++ r.2)

/-! Helper lemmas on usub and deliver_ids (shared across claims). -/

theorem usub_of_le (a b : Nat) (hb : b ≤ a) (ha : a < USIZE) :
    usub a b = a - b := by
  unfold usub USIZE at *
  omega

theorem usub_of_gt (a b : Nat) (ha : a < USIZE) (hb : b < USIZE) (hab : a < b) :
    usub a b = a + (USIZE - b) := by
  unfold usub USIZE at *
  omega

theorem deliver_ids_eq_filter (reg : Nat → Bool) (l : List Nat) :
    deliver_ids reg l = l.filter reg := by
  induction l with
  | nil => rfl
  | cons i rest ih =>
    by_cases h : reg i
    · simp [deliver_ids, h, List.filter_cons, ih]
    · simp only [Bool.not_eq_true] at h
      simp [deliver_ids, h, List.filter_cons, ih]

theorem deliver_ids_length_le (reg : Nat → Bool) (l : List Nat) :
    (deliver_ids reg l).length ≤ l.length := by
  rw [deliver_ids_eq_filter]
  exact List.length_filter_le reg l

theorem deliver_ids_length_lt (reg : Nat → Bool) (l : List Nat)
    (h : ∃ i ∈ l, reg i = false) :
    (deliver_ids reg l).length < l.length := by
  induction l with
  | nil => simp at h
  | cons i rest ih =>
    by_cases hi : reg i
    · obtain ⟨j, hj, hjf⟩ := h
      rcases List.mem_cons.mp hj with hji | hjr
      · rw [hji] at hjf
        rw [hi] at hjf
        exact absurd hjf (by simp)
      · have := ih ⟨j, hjr, hjf⟩
        simp only [deliver_ids, hi, if_true, List.length_cons]
        omega
    · simp only [Bool.not_eq_true] at hi
      have := deliver_ids_length_le reg rest
      simp only [deliver_ids, hi, Bool.false_eq_true, if_false, List.length_cons]
      omega

theorem deliver_ids_not_mem (reg : Nat → Bool) (l : List Nat) (i : Nat)
    (h : reg i = false) : i ∉ deliver_ids reg l := by
  rw [deliver_ids_eq_filter]
  intro hmem
  have := List.of_mem_filter hmem
  rw [h] at this
  exact absurd this (by simp)

/-!
Claim C9: underflow detection during a byte-drain.
-/

/-- C9: when an entry's recorded attached-id count is inconsistent with its
total length, so that the size_t remaining-byte computation underflows
(recv_offset exceeds the entry length), vfd_out_locked returns -EIO for the
whole read instead of copying past the end of the buffer. -/
theorem drain_underflow_eio :
    ∀ (len : Nat) (q : QEntry) (rest : List QEntry),
      q.len < 2 ^ 32 →
      q.vfd_count < 2 ^ 32 →
      q.data_offset < 2 ^ 32 →
      q.len < ctrl_vfd_recv_size + q.vfd_count * 4 + q.data_offset →
      vfd_out_locked len (q :: rest) = Except.error (- EIO) := by
  intro len q rest h1 h2 h3 h4
  have hlt : q.len < USIZE := by
    unfold USIZE
    omega
  have hblt : ctrl_vfd_recv_size + q.vfd_count * 4 + q.data_offset < USIZE := by
    unfold USIZE ctrl_vfd_recv_size at *
    omega
  have hu := usub_of_gt q.len
    (ctrl_vfd_recv_size + q.vfd_count * 4 + q.data_offset) hlt hblt h4
  have hcond :
      usub q.len (ctrl_vfd_recv_size + q.vfd_count * 4 + q.data_offset) >
        q.len := by
    rw [hu]
    unfold USIZE at *
    omega
  unfold vfd_out_locked
  simp only [vfd_out_go]
  rw [if_pos hcond]

/-- Witness for C9: an entry claiming 2 attached ids inside a 10-byte buffer
underflows and the read fails with -EIO. -/
theorem drain_underflow_eio_witness :
    vfd_out_locked 5 [⟨VIRTIO_WL_CMD_VFD_RECV, 10, 2, [], 0, 0⟩] =
      Except.error (- EIO) :=
  drain_underflow_eio 5 ⟨VIRTIO_WL_CMD_VFD_RECV, 10, 2, [], 0, 0⟩ []
    (by decide) (by decide) (by decide) (by decide)

/-- The entry after a byte-drain step advanced its data offset by t, as
vfd_out_locked line 629 does. -/
def qentry_advance_data (q : QEntry) (t : Nat) : QEntry :=
  { q with data_offset := q.data_offset + t }

/-!
Claim C2: the queue-entry recycle lifecycle.
-/

/-- C2: a recv queue entry is recycled exactly when both drain positions
have reached their limits, and a byte-drain step keeps an under-drained
entry queued.  First conjunct: draining a single-entry queue into a buffer
of length l advances the data offset by exactly min(remaining bytes, l) and
leaves the updated entry in the queue unless vfd_qentry_free_if_empty
recycles it (the recycled entry leaves the queue, so it can be recycled at
most once).  Second conjunct: for a well-formed recv entry the recycle
decision holds exactly when the data offset equals the data length and the
attached-id offset equals the attached-id count. -/
theorem recv_qentry_release_iff_drained :
    ∀ (l : Nat) (q : QEntry),
      q.type = VIRTIO_WL_CMD_VFD_RECV →
      q.len < 2 ^ 32 →
      ctrl_vfd_recv_size + q.vfd_count * 4 + q.data_offset ≤ q.len →
      (vfd_out_locked l [q] =
        Except.ok
          (min (q.len - (ctrl_vfd_recv_size + q.vfd_count * 4 + q.data_offset)) l,
           if vfd_qentry_free_if_empty (qentry_advance_data q (min (q.len - (ctrl_vfd_recv_size + q.vfd_count * 4 + q.data_offset)) l))
           then []
           else [qentry_advance_data q (min (q.len - (ctrl_vfd_recv_size + q.vfd_count * 4 + q.data_offset)) l)])) ∧
      (∀ q1 : QEntry,
        q1.type = VIRTIO_WL_CMD_VFD_RECV →
        ctrl_vfd_recv_size + q1.vfd_count * 4 + q1.data_offset ≤ q1.len →
        q1.vfd_offset ≤ q1.vfd_count →
        (vfd_qentry_free_if_empty q1 = true ↔
          ((q1.data_offset : Int) = qentry_data_len q1 ∧
           q1.vfd_offset = q1.vfd_count))) := by
  intro l q htype hlen hwf
  constructor
  · have husize : q.len < USIZE := by
      unfold USIZE
      omega
    have hr : usub q.len (ctrl_vfd_recv_size + q.vfd_count * 4 + q.data_offset) =
        q.len - (ctrl_vfd_recv_size + q.vfd_count * 4 + q.data_offset) :=
      usub_of_le _ _ hwf husize
    have hntype : ¬ (q.type ≠ VIRTIO_WL_CMD_VFD_RECV) := by
      simp [htype]
    unfold vfd_out_locked
    simp only [vfd_out_go, qentry_advance_data, hr, Nat.sub_zero, Nat.zero_add]
    rw [if_neg (by omega :
      ¬ q.len - (ctrl_vfd_recv_size + q.vfd_count * 4 + q.data_offset) > q.len)]
    rw [if_neg hntype]
    by_cases hl :
        l < q.len - (ctrl_vfd_recv_size + q.vfd_count * 4 + q.data_offset)
    · rw [if_pos hl]
      have hmin :
          min (q.len - (ctrl_vfd_recv_size + q.vfd_count * 4 + q.data_offset)) l =
            l := by
        omega
      rw [if_pos (by omega : l ≥ l), hmin]
      simp
    · rw [if_neg hl]
      have hmin :
          min (q.len - (ctrl_vfd_recv_size + q.vfd_count * 4 + q.data_offset)) l =
            q.len - (ctrl_vfd_recv_size + q.vfd_count * 4 + q.data_offset) := by
        omega
      rw [hmin]
      by_cases hge :
          q.len - (ctrl_vfd_recv_size + q.vfd_count * 4 + q.data_offset) ≥ l
      · rw [if_pos hge]
        simp
      · rw [if_neg hge]
        simp
  · intro q1 ht1 hwf1 hoff1
    have hd : qentry_data_len q1 =
        (q1.len : Int) - (ctrl_vfd_recv_size : Int) - (q1.vfd_count : Int) * 4 :=
      rfl
    simp only [vfd_qentry_free_if_empty, ht1, if_pos, Bool.and_eq_true,
      decide_eq_true_eq, if_true]
    constructor
    · intro hpair
      have h1 := hpair.1
      have h2 := hpair.2
      constructor
      · rw [hd] at h2 ⊢
        have : (ctrl_vfd_recv_size : Int) + (q1.vfd_count : Int) * 4 +
            (q1.data_offset : Int) ≤ (q1.len : Int) := by
          exact_mod_cast hwf1
        omega
      · omega
    · intro hpair
      constructor
      · omega
      · rw [hd] at hpair ⊢
        omega

/-- Witness for C2: a recv entry with 4 data bytes and no attached ids,
drained into a 4-byte buffer, is advanced to its data length and recycled
(leaves the queue); the recycle decision holds for it exactly at the
limits. -/
theorem recv_qentry_release_iff_drained_witness :
    vfd_out_locked 4 [⟨VIRTIO_WL_CMD_VFD_RECV, 20, 0, [], 0, 0⟩] =
      Except.ok (4, []) := by
  have h := (recv_qentry_release_iff_drained 4
    ⟨VIRTIO_WL_CMD_VFD_RECV, 20, 0, [], 0, 0⟩ rfl (by decide) (by decide)).1
  simpa using h

/-!
Claim C10: unresolved attached ids are skipped silently.
-/

/-- C10: draining attached ids from a single-entry queue delivers exactly
the ids the registry resolves, in order; an id the registry does not know is
never delivered, yet the entry's attached-id offset still advances to the
full count, no error is reported (the function is total and returns a
count), and the delivered count is strictly smaller than the carried count
whenever some id is unknown. -/
theorem unknown_attached_id_skipped :
    ∀ (reg : Nat → Bool) (c : Nat) (q : QEntry),
      q.type = VIRTIO_WL_CMD_VFD_RECV →
      q.ids.length = q.vfd_count →
      q.vfd_offset < q.vfd_count →
      q.vfd_count - q.vfd_offset ≤ c →
      ((vfd_out_vfds_locked reg c [q]).1 =
          deliver_ids reg (q.ids.drop q.vfd_offset) ∧
       (∀ i : Nat, reg i = false →
          i ∉ (vfd_out_vfds_locked reg c [q]).1) ∧
       (deliver_ids reg (q.ids.drop q.vfd_offset)).length ≤
          (q.ids.drop q.vfd_offset).length ∧
       ((∃ i ∈ q.ids.drop q.vfd_offset, reg i = false) →
          (deliver_ids reg (q.ids.drop q.vfd_offset)).length <
            (q.ids.drop q.vfd_offset).length) ∧
       (∀ q1 ∈ (vfd_out_vfds_locked reg c [q]).2,
          q1.vfd_offset = q.vfd_count)) := by
  intro reg c q htype hids hoff hcap
  have hc0 : ¬ c = 0 := by omega
  have hno : ¬ (q.vfd_count ≤ q.vfd_offset) := by omega
  have hntype : ¬ (q.type ≠ VIRTIO_WL_CMD_VFD_RECV) := by
    simp [htype]
  have hn : min (q.vfd_count - q.vfd_offset) c = q.vfd_count - q.vfd_offset :=
    Nat.min_eq_left hcap
  have hslen : (q.ids.drop q.vfd_offset).length = q.vfd_count - q.vfd_offset := by
    rw [List.length_drop, hids]
  have hslice :
      (q.ids.drop q.vfd_offset).take (q.vfd_count - q.vfd_offset) =
        q.ids.drop q.vfd_offset := by
    rw [← hslen]
    exact List.take_length _
  have heq : vfd_out_vfds_locked reg c [q] =
      (deliver_ids reg (q.ids.drop q.vfd_offset),
       if vfd_qentry_free_if_empty
           { q with vfd_offset := q.vfd_offset + (q.vfd_count - q.vfd_offset) }
       then []
       else [{ q with vfd_offset := q.vfd_offset + (q.vfd_count - q.vfd_offset) }]) := by
    simp only [vfd_out_vfds_locked, if_neg hc0, if_neg hno, if_neg hntype, hn,
      hslice]
    by_cases hfree : vfd_qentry_free_if_empty
        { q with vfd_offset := q.vfd_offset + (q.vfd_count - q.vfd_offset) }
    · simp [hfree]
    · simp [hfree]
  refine ⟨by rw [heq], ?_, deliver_ids_length_le reg _, ?_, ?_⟩
  · intro i hi
    rw [heq]
    exact deliver_ids_not_mem reg _ i hi
  · intro hex
    exact deliver_ids_length_lt reg _ hex
  · intro q1 hq1
    rw [heq] at hq1
    by_cases hfree : vfd_qentry_free_if_empty
        { q with vfd_offset := q.vfd_offset + (q.vfd_count - q.vfd_offset) }
    · simp [hfree] at hq1
    · simp only [hfree, if_false, Bool.false_eq_true, List.mem_singleton] at hq1
      rw [hq1]
      simp only []
      omega

/-- Witness for C10: with only id 1 registered, an entry carrying ids
1, 5, 1 delivers two ids and skips the unknown id 5; the drained entry
leaves the queue with its offset at the full count. -/
theorem unknown_attached_id_skipped_witness :
    (vfd_out_vfds_locked (fun i => decide (i = 1)) 3
        [⟨VIRTIO_WL_CMD_VFD_RECV, 28, 3, [1, 5, 1], 0, 12⟩]).1 = [1, 1] := by
  have h := (unknown_attached_id_skipped (fun i => decide (i = 1)) 3
    ⟨VIRTIO_WL_CMD_VFD_RECV, 28, 3, [1, 5, 1], 0, 12⟩ rfl (by decide)
    (by decide) (by decide)).1
  simpa using h

end VirtioWl
